import Mathlib

/-!
# Verification of `app.py` (AIsosceles site)

A shallow embedding of the core logic of `src/app.py`:

* `list_markdown_posts` — directory listing of markdown posts, sorted by
  modification time descending (Python `sorted(..., reverse=True)`, a stable
  sort, embedded as `List.insertionSort` with the non-strict descending
  relation, which is stable).
* `render_markdown_file` — markdown rendering; the external `markdown.markdown`
  library (a pure function of the source text for a fixed extension list) is
  embedded as an explicit function parameter `render : String → String`.
* `append_csv` — the submission logger, together with a faithful model of the
  Python `csv` module's default dialect: `csv.writer` quoting
  (`QUOTE_MINIMAL`, quote char `"` doubled, line terminator CRLF, a lone empty
  field quoted) and the `csv.reader` state machine (non-strict, files opened
  with `newline=''`).
* the `subscribe` / `contact` / `blog_post` / `study_session_post` handlers.

The filesystem is modelled explicitly: a directory is an optional list of
entries (`none` = the directory does not exist; list order = enumeration
order), and for path-sensitive claims a global store maps resolved path
segment lists to file contents.
-/

/- ### Python string primitives -/

/-- The whitespace set stripped by Python `str.strip()` (the Latin-1 part of
`Py_UNICODE_ISSPACE`; the strings handled here are ASCII). -/
def pyIsSpace (c : Char) : Bool :=
  c = ' ' || c = '\t' || c = '\n' || c = '\r' || c = '\x0b' || c = '\x0c' ||
  c = '\x1c' || c = '\x1d' || c = '\x1e' || c = '\x1f' || c = '\x85' || c = '\xa0'

/-- Python `str.strip()`: drop leading and trailing whitespace. -/
def pyStrip (s : String) : String :=
  String.mk (((s.data.dropWhile pyIsSpace).reverse.dropWhile pyIsSpace).reverse)

/-- Python `.replace("-", " ")` (single-character pattern, so a plain map). -/
def dashToSpace (s : String) : String :=
  String.mk (s.data.map (fun c => if c = '-' then ' ' else c))

/-- One pass of Python `str.title()`: a cased (here: ASCII alphabetic)
character is uppercased when the previous character was not cased and
lowercased otherwise. -/
def pyTitleAux : Bool → List Char → List Char
  | _, [] => []
  | prevCased, c :: r =>
    if c.isAlpha then
      (if prevCased then c.toLower else c.toUpper) :: pyTitleAux true r
    else
      c :: pyTitleAux false r

/-- Python `str.title()`. -/
def pyTitle (s : String) : String :=
  String.mk (pyTitleAux false s.data)

/-- The filename-to-title transform used both by `list_markdown_posts`
(on `md.stem`) and by the single-post handlers (on `post_name`):
`.replace("-", " ").title()`. -/
def pyTitleTransform (s : String) : String :=
  pyTitle (dashToSpace s)

/-- Index of the last `'.'` in a character list, if any. -/
def lastDotIdx (l : List Char) : Option Nat :=
  match l.reverse.findIdx? (· = '.') with
  | none => none
  | some j => some (l.length - 1 - j)

/-- `pathlib.PurePath.stem`: the final component without its suffix; a suffix
exists only when the last dot is neither the first nor the last character. -/
def pyStem (name : String) : String :=
  let l := name.data
  match lastDotIdx l with
  | some i => if 0 < i ∧ i < l.length - 1 then String.mk (l.take i) else name
  | none => name

/-- Whether a filename matches the glob pattern `*.md` (the `*` may match the
empty string, so this is exactly "ends with `.md`"). -/
def isMd (name : String) : Bool :=
  name.data.reverse.take 3 = ['d', 'm', '.']

/- ### The csv module, default dialect -/

/-- Characters forcing `csv.writer` (QUOTE_MINIMAL) to quote a field: the
delimiter `,`, the quote char `"`, and the characters of the line
terminator `"\r\n"`. -/
def isCsvSpecial (c : Char) : Bool :=
  c = ',' || c = '"' || c = '\r' || c = '\n'

/-- Double every quote character (the writer's `doublequote=True` escaping). -/
def escQuotes : List Char → List Char
  | [] => []
  | c :: r => if c = '"' then '"' :: '"' :: escQuotes r else c :: escQuotes r

/-- `csv.writer` rendering of one field under QUOTE_MINIMAL. -/
def encodeFieldData (f : String) : List Char :=
  if f.data.any isCsvSpecial then '"' :: (escQuotes f.data ++ ['"']) else f.data

/-- Join rendered fields with the `,` delimiter. -/
def joinComma : List (List Char) → List Char
  | [] => []
  | [x] => x
  | x :: y :: r => x ++ ',' :: joinComma (y :: r)

/-- `csv.writer.writerow`: fields joined by `,` and terminated by CRLF; a
record consisting of a single empty field is written as `""` so that it is
distinguishable from a blank line. -/
def encodeRowData (row : List String) : List Char :=
  (match row with
   | [f] => if f = "" then ['"', '"'] else encodeFieldData f
   | _ => joinComma (row.map encodeFieldData)) ++ ['\r', '\n']

/-- String form of `csv.writer.writerow`. -/
def encodeRow (row : List String) : String :=
  String.mk (encodeRowData row)

/-- A whole file written row by row by `csv.writer`. -/
def encodeRows (rows : List (List String)) : String :=
  String.mk ((rows.map encodeRowData).flatten)

/-- States of the `csv.reader` character machine (default dialect,
`strict=False`, underlying file opened with `newline=''`):
start of record, just after a record-terminating `'\r'` (a following `'\n'`
belongs to the same terminator), after a delimiter, inside an unquoted field,
inside a quoted field, and just after a quote inside a quoted field. -/
inductive CsvMode
  | startRec | afterCR | startField | inField | inQuoted | quoteQuoted

/-- The `csv.reader` state machine. `cur` is the field being accumulated and
`fs` the fields of the record being accumulated; completed records are emitted
in order. At end of input a pending field or record is emitted (non-strict
reader behaviour). -/
def runCsv : CsvMode → List Char → List String → List Char → List (List String)
  | .startRec, _, _, [] => []
  | .startRec, _, _, c :: r =>
    if c = '\n' then [] :: runCsv .startRec [] [] r
    else if c = '\r' then [] :: runCsv .afterCR [] [] r
    else if c = '"' then runCsv .inQuoted [] [] r
    else if c = ',' then runCsv .startField [] [""] r
    else runCsv .inField [c] [] r
  | .afterCR, _, _, [] => []
  | .afterCR, _, _, c :: r =>
    if c = '\n' then runCsv .startRec [] [] r
    else if c = '\r' then [] :: runCsv .afterCR [] [] r
    else if c = '"' then runCsv .inQuoted [] [] r
    else if c = ',' then runCsv .startField [] [""] r
    else runCsv .inField [c] [] r
  | .startField, _, fs, [] => [fs ++ [""]]
  | .startField, _, fs, c :: r =>
    if c = '\n' then (fs ++ [""]) :: runCsv .startRec [] [] r
    else if c = '\r' then (fs ++ [""]) :: runCsv .afterCR [] [] r
    else if c = '"' then runCsv .inQuoted [] fs r
    else if c = ',' then runCsv .startField [] (fs ++ [""]) r
    else runCsv .inField [c] fs r
  | .inField, cur, fs, [] => [fs ++ [String.mk cur]]
  | .inField, cur, fs, c :: r =>
    if c = '\n' then (fs ++ [String.mk cur]) :: runCsv .startRec [] [] r
    else if c = '\r' then (fs ++ [String.mk cur]) :: runCsv .afterCR [] [] r
    else if c = ',' then runCsv .startField [] (fs ++ [String.mk cur]) r
    else runCsv .inField (cur ++ [c]) fs r
  | .inQuoted, cur, fs, [] => [fs ++ [String.mk cur]]
  | .inQuoted, cur, fs, c :: r =>
    if c = '"' then runCsv .quoteQuoted cur fs r
    else runCsv .inQuoted (cur ++ [c]) fs r
  | .quoteQuoted, cur, fs, [] => [fs ++ [String.mk cur]]
  | .quoteQuoted, cur, fs, c :: r =>
    if c = '"' then runCsv .inQuoted (cur ++ ['"']) fs r
    else if c = ',' then runCsv .startField [] (fs ++ [String.mk cur]) r
    else if c = '\n' then (fs ++ [String.mk cur]) :: runCsv .startRec [] [] r
    else if c = '\r' then (fs ++ [String.mk cur]) :: runCsv .afterCR [] [] r
    else runCsv .inField (cur ++ [c]) fs r

/-- `csv.reader` over the full contents of a file opened with `newline=''`. -/
def parseCsv (s : String) : List (List String) :=
  runCsv .startRec [] [] s.data

/- ### The submission logger (`append_csv`) and the form handlers -/

/-- `append_csv(path, row, header)` from `src/app.py`, acting on the state of
the one file at `path`: `none` models a path that does not exist. The file is
opened in append mode (created if absent); the header is written only when the
file did not exist (`first`) and a header was supplied. Returns the full new
contents of the file. -/
def append_csv (state : Option String) (row : List String)
    (header : Option (List String)) : String :=
  let first := state.isNone
  let content := state.getD ""
  (match first, header with
   | true, some h => content ++ encodeRow h
   | _, _ => content) ++ encodeRow row

/-- Outcome of a form handler: the flashed message and category, and the new
state of the handler's log file. -/
structure HandlerResult where
  message : String
  category : String
  file : Option String

/-- The `/subscribe` handler: the stripped email is required to be non-empty
(Python truthiness of a string is non-emptiness); on failure flash a danger
message and leave the log untouched, on success append `[email, timestamp]`
with header `["email", "utc_time"]`. -/
def subscribe (email_raw ts : String) (st : Option String) : HandlerResult :=
  let email := pyStrip email_raw
  if email = "" then
    ⟨"Please enter a valid email.", "danger", st⟩
  else
    ⟨"Thanks — you are now on the list.", "success",
      some (append_csv st [email, ts] (some ["email", "utc_time"]))⟩

/-- The `/contact` handler: stripped message and email both required; name is
optional (defaults to the empty string upstream). -/
def contact (name_raw email_raw message_raw ts : String) (st : Option String) :
    HandlerResult :=
  let name := pyStrip name_raw
  let email := pyStrip email_raw
  let message := pyStrip message_raw
  if message = "" ∨ email = "" then
    ⟨"Please include at least an email and a message.", "danger", st⟩
  else
    ⟨"Thanks — your message has been recorded. I will get back to you.", "success",
      some (append_csv st [ts, name, email, message]
        (some ["utc_time", "name", "email", "message"]))⟩

/- ### The post lister (`list_markdown_posts`) -/

/-- A directory entry as seen by `folder.glob`: name, `st_mtime`, contents.
Directory contents are a list in filesystem enumeration order. -/
structure FsEntry where
  name : String
  mtime : Int
  content : String

/-- The metadata dictionary built by `list_markdown_posts` for one file. -/
structure Post where
  filename : String
  path : String
  title : String
  mtime : Int

/-- The ordering used by `sorted(posts, key=lambda p: p["mtime"], reverse=True)`:
`a` may precede `b` iff `b.mtime ≤ a.mtime`. -/
def postLe (a b : Post) : Prop := b.mtime ≤ a.mtime

instance : DecidableRel postLe := fun a b =>
  inferInstanceAs (Decidable (b.mtime ≤ a.mtime))

instance : IsTotal Post postLe := ⟨fun a b => le_total b.mtime a.mtime⟩

instance : IsTrans Post postLe := ⟨fun _ _ _ h1 h2 => le_trans h2 h1⟩

/-- The metadata dictionary for one globbed file. -/
def toPost (folderPath : String) (e : FsEntry) : Post :=
  { filename := e.name
    path := folderPath ++ "/" ++ e.name
    title := pyTitleTransform (pyStem e.name)
    mtime := e.mtime }

/-- `list_markdown_posts(folder)` from `src/app.py`. The folder is `none`
when the directory does not exist (in which case `pathlib` globbing yields
nothing: `_Selector.select_from` returns an empty iterator when the parent is
not a directory, so no exception escapes). Python's `sorted` with
`reverse=True` is a stable descending sort, embedded as insertion sort with
the non-strict relation `postLe`, which is stable. -/
def list_markdown_posts (folderPath : String) (folder : Option (List FsEntry)) :
    List Post :=
  match folder with
  | none => []
  | some es =>
    List.insertionSort postLe ((es.filter (fun e => isMd e.name)).map (toPost folderPath))

/- ### Paths, the renderer, and the single-post handlers -/

/-- Split a path string at `/`, as `pathlib`'s `/` operator does with a
string argument containing separators. -/
def splitSlashAux (acc : List Char) : List Char → List (List Char)
  | [] => [acc.reverse]
  | c :: r => if c = '/' then acc.reverse :: splitSlashAux [] r else splitSlashAux (c :: acc) r

/-- Path-segment decomposition of a relative path string. -/
def splitSlash (s : String) : List String :=
  (splitSlashAux [] s.data).map String.mk

/-- Operating-system resolution of a segment list against the (root) base
directory: `..` pops a segment, `.` and empty segments are ignored. -/
def resolveSegs (segs : List String) : List String :=
  segs.foldl
    (fun acc seg =>
      if seg = ".." then acc.dropLast
      else if seg = "." ∨ seg = "" then acc
      else acc ++ [seg])
    []

/-- A filesystem for path-addressed reads: resolved segment list ↦ contents. -/
def Fs : Type := List (List String × String)

/-- `path.exists()` / `path.read_text()` combined: contents of the file at
the resolved path, if it exists. -/
def fsRead (fs : Fs) (path : List String) : Option String :=
  List.lookup (resolveSegs path) fs

/-- `BLOG_DIR` relative to the application base directory. -/
def BLOG_SEGS : List String := ["content", "blog_posts"]

/-- `STUDY_DIR` relative to the application base directory. -/
def STUDY_SEGS : List String := ["content", "study_sessions"]

/-- `render_markdown_file(md_path)` from `src/app.py`: `None` when the path
does not exist, otherwise the rendered text. The external `markdown.markdown`
call (pure in the source text for the fixed extension list
`["fenced_code", "codehilite", "tables"]`) is the parameter `render`. -/
def render_markdown_file (render : String → String) (fs : Fs)
    (md_path : List String) : Option String :=
  match fsRead fs md_path with
  | none => none
  | some text => some (render text)

/-- The `/blog/<post_name>` handler: joins `BLOG_DIR` with `post_name + ".md"`
(no containment check), renders, and returns `none` for `abort(404)` or the
HTML together with the derived title. -/
def blog_post (render : String → String) (fs : Fs) (post_name : String) :
    Option (String × String) :=
  let md_file := BLOG_SEGS ++ splitSlash (post_name ++ ".md")
  match render_markdown_file render fs md_file with
  | none => none
  | some html => some (html, pyTitleTransform post_name)

/-- The `/study-sessions/<post_name>` handler, identical but for the directory. -/
def study_session_post (render : String → String) (fs : Fs) (post_name : String) :
    Option (String × String) :=
  let md_file := STUDY_SEGS ++ splitSlash (post_name ++ ".md")
  match render_markdown_file render fs md_file with
  | none => none
  | some html => some (html, pyTitleTransform post_name)

/- ### Interleaving model for concurrent `append_csv` calls -/

/-- One in-flight `append_csv(path, row, header)` call, broken into its three
observable steps against the shared file: `pc = 0`: about to evaluate
`path.exists()`; `pc = 1`: about to open (creating the file); `pc = 2`: about
to flush the buffered write (header-if-first plus row, one contiguous append,
per the append-mode/buffered-flush guarantee of the storage layer);
`pc = 3`: done.  `first` stores the result of the existence check. -/
structure LoggerCall where
  header : List String
  row : List String
  pc : Nat
  first : Bool

/-- Execute the next step of one call against the shared file state. -/
def stepCall (file : Option String) (p : LoggerCall) : Option String × LoggerCall :=
  match p.pc with
  | 0 => (file, { p with first := file.isNone, pc := 1 })
  | 1 => (some (file.getD ""), { p with pc := 2 })
  | 2 => (some ((file.getD "") ++
          (if p.first then encodeRow p.header else "") ++ encodeRow p.row),
          { p with pc := 3 })
  | _ => (file, p)

/-- Two concurrent `append_csv` calls sharing one log file. -/
structure LogSys where
  file : Option String
  c1 : LoggerCall
  c2 : LoggerCall

/-- Run one scheduler choice (`false` = first call, `true` = second call). -/
def stepSys (s : LogSys) (who : Bool) : LogSys :=
  if who then
    let fc := stepCall s.file s.c2
    ⟨fc.1, s.c1, fc.2⟩
  else
    let fc := stepCall s.file s.c1
    ⟨fc.1, fc.2, s.c2⟩

/-- Run a whole schedule. -/
def runSched (sched : List Bool) (s : LogSys) : LogSys :=
  sched.foldl stepSys s

/-- All boolean lists of length `n` (all schedules of `n` scheduler choices). -/
def allBoolLists : Nat → List (List Bool)
  | 0 => [[]]
  | n + 1 => (allBoolLists n).map (false :: ·) ++ (allBoolLists n).map (true :: ·)

/-- The complete schedules of two three-step calls: six choices, three per
call (further choices would be no-ops). -/
def schedules6 : List (List Bool) :=
  (allBoolLists 6).filter (fun s => s.count true = 3)

/-- The subscription log header. -/
def subHeader : List String := ["email", "utc_time"]

/-- Two concurrent subscription submissions against a log file that does not
yet exist. -/
def subInit (r1 r2 : List String) : LogSys :=
  ⟨none, ⟨subHeader, r1, 0, false⟩, ⟨subHeader, r2, 0, false⟩⟩

/-- The rows of the log file produced by a schedule of the two concurrent
subscription appends. -/
def subOutcome (r1 r2 : List String) (sched : List Bool) : List (List String) :=
  parseCsv ((runSched sched (subInit r1 r2)).file.getD "")

/- ### Small string helpers -/

/-- Structure eta: rebuilding a string from its characters is the identity. -/
theorem string_mk_data (s : String) : String.mk s.data = s := rfl

/-- Character list of a concatenation. -/
theorem string_data_append (a b : String) : (a ++ b).data = a.data ++ b.data := rfl

/-- The empty string is a left identity for concatenation. -/
theorem empty_string_append (s : String) : "" ++ s = s := by
  cases s
  rfl

/- ### C4, C5, C6, C7, C8, C10 -/

/-- C4: a contact submission whose email or message is empty after trimming,
and a subscription submission whose email is empty after trimming, flash the
user-facing validation message with the `danger` category, and the log file
state is returned unchanged — no write happens on the error path. -/
theorem invalid_submission_rejected_without_write :
    (∀ email ts st, pyStrip email = "" →
      subscribe email ts st = ⟨"Please enter a valid email.", "danger", st⟩) ∧
    (∀ name email message ts st, pyStrip message = "" ∨ pyStrip email = "" →
      contact name email message ts st =
        ⟨"Please include at least an email and a message.", "danger", st⟩) := by
  constructor
  · intro email ts st h
    simp [subscribe, h]
  · intro name email message ts st h
    simp only [contact]
    rw [if_pos h]

/-- C4 witness: a whitespace-only email is rejected by `subscribe` and a
whitespace-only message by `contact`, each leaving the (absent) log file
absent. -/
theorem invalid_submission_rejected_without_write_witness :
    subscribe " \t " "2020-01-01T00:00:00" none =
      ⟨"Please enter a valid email.", "danger", none⟩ ∧
    contact "Ann" "a@example.com" "   " "2020-01-01T00:00:00" none =
      ⟨"Please include at least an email and a message.", "danger", none⟩ :=
  ⟨invalid_submission_rejected_without_write.1 " \t " _ none (by decide),
   invalid_submission_rejected_without_write.2 "Ann" "a@example.com" "   " _ none
     (Or.inl (by decide))⟩

/-- C5: listing a collection that does not exist (`none`), is empty, or
contains no markdown files yields the empty list; the embedding is a total
function, so no exception is possible (in the source, `pathlib` globbing of a
missing directory yields an empty iterator rather than raising). -/
theorem list_documents_empty_on_missing_or_empty
    (folderPath : String) (folder : Option (List FsEntry))
    (h : ∀ es, folder = some es → ∀ e ∈ es, isMd e.name = false) :
    list_markdown_posts folderPath folder = [] := by
  cases folder with
  | none => rfl
  | some es =>
    have hes : es.filter (fun e => isMd e.name) = [] :=
      List.filter_eq_nil_iff.mpr (by
        intro e he
        simp [h es rfl e he])
    simp [list_markdown_posts, hes, List.insertionSort]

/-- C5 witness: the nonexistent directory, an empty directory, and a directory
with only non-markdown files all list as empty. -/
theorem list_documents_empty_on_missing_or_empty_witness :
    list_markdown_posts "content/blog_posts" none = [] ∧
    list_markdown_posts "content/blog_posts" (some []) = [] ∧
    list_markdown_posts "content/blog_posts" (some [⟨"notes.txt", 5, "x"⟩]) = [] :=
  ⟨list_documents_empty_on_missing_or_empty _ none (by intro es hes; cases hes),
   list_documents_empty_on_missing_or_empty _ (some []) (by
    intro es hes e he
    cases hes
    cases he),
   list_documents_empty_on_missing_or_empty _ (some [⟨"notes.txt", 5, "x"⟩]) (by
    intro es hes e he
    cases hes
    simp at he
    rw [he]
    decide)⟩

/-- C6: when the markdown file for an identifier is absent,
`render_markdown_file` returns `none` and both single-post handlers return
`none` (the `abort(404)` outcome); the functions are total, so no unhandled
failure can escape. -/
theorem missing_document_not_found (render : String → String) (fs : Fs)
    (name : String)
    (hb : fsRead fs (BLOG_SEGS ++ splitSlash (name ++ ".md")) = none)
    (hs : fsRead fs (STUDY_SEGS ++ splitSlash (name ++ ".md")) = none) :
    render_markdown_file render fs (BLOG_SEGS ++ splitSlash (name ++ ".md")) = none ∧
    blog_post render fs name = none ∧
    study_session_post render fs name = none := by
  refine ⟨?_, ?_, ?_⟩
  · simp [render_markdown_file, hb]
  · simp [blog_post, render_markdown_file, hb]
  · simp [study_session_post, render_markdown_file, hs]

/-- C6 witness: on an empty filesystem, a request for `missing-post` renders
to `none` and both handlers produce the 404 outcome. -/
theorem missing_document_not_found_witness :
    render_markdown_file (fun s => s) []
      (BLOG_SEGS ++ splitSlash ("missing-post" ++ ".md")) = none ∧
    blog_post (fun s => s) [] "missing-post" = none ∧
    study_session_post (fun s => s) [] "missing-post" = none :=
  missing_document_not_found (fun s => s) [] "missing-post" rfl rfl

/-- C7: title derivation is the pure transform
`.replace("-", " ").title()` of the filename: `derive_title("my-first-post")`
is `"My First Post"`; `list_markdown_posts` applies it to the file stem, and
both single-post handlers apply exactly the same transform to the identifier,
independent of the markdown file's content. -/
theorem title_derivation_pure_and_shared :
    pyTitleTransform "my-first-post" = "My First Post" ∧
    (∀ folderPath e, (toPost folderPath e).title = pyTitleTransform (pyStem e.name)) ∧
    (∀ render fs name, blog_post render fs name =
      (render_markdown_file render fs (BLOG_SEGS ++ splitSlash (name ++ ".md"))).map
        (fun html => (html, pyTitleTransform name))) ∧
    (∀ render fs name, study_session_post render fs name =
      (render_markdown_file render fs (STUDY_SEGS ++ splitSlash (name ++ ".md"))).map
        (fun html => (html, pyTitleTransform name))) := by
  refine ⟨by decide, fun folderPath e => rfl, fun render fs name => ?_, fun render fs name => ?_⟩
  · cases h : render_markdown_file render fs (BLOG_SEGS ++ splitSlash (name ++ ".md")) with
    | none => simp [blog_post, h]
    | some html => simp [blog_post, h]
  · cases h : render_markdown_file render fs (STUDY_SEGS ++ splitSlash (name ++ ".md")) with
    | none => simp [study_session_post, h]
    | some html => simp [study_session_post, h]

/-- C8: rendering is deterministic and side-effect-free — the output of
`render_markdown_file` is a function of the file's content alone (the external
markdown library being embedded as the function parameter `render`), so two
reads of unchanged content give byte-identical HTML. -/
theorem render_document_deterministic (render : String → String)
    (fs1 fs2 : Fs) (p1 p2 : List String)
    (h : fsRead fs1 p1 = fsRead fs2 p2) :
    render_markdown_file render fs1 p1 = render_markdown_file render fs2 p2 := by
  simp [render_markdown_file, h]

/-- C8 witness: two successive renders of the same stored document agree. -/
theorem render_document_deterministic_witness :
    render_markdown_file (fun s => s ++ s)
      [(["content", "blog_posts", "a.md"], "# hi")] ["content", "blog_posts", "a.md"] =
    render_markdown_file (fun s => s ++ s)
      [(["content", "blog_posts", "a.md"], "# hi")] ["content", "blog_posts", "a.md"] :=
  render_document_deterministic (fun s => s ++ s) _ _ _ _ rfl

/-- C10: the single-post handlers join the collection directory with the
caller-supplied identifier without a containment check, so the identifier
`../../secret` resolves outside both collection directories and the handlers
read and render that external file instead of signalling 404. -/
theorem path_traversal_escapes_collection :
    resolveSegs (STUDY_SEGS ++ splitSlash ("../../secret" ++ ".md")) = ["secret.md"] ∧
    resolveSegs (BLOG_SEGS ++ splitSlash ("../../secret" ++ ".md")) = ["secret.md"] ∧
    (∀ rest, ["secret.md"] ≠ STUDY_SEGS ++ rest) ∧
    (∀ rest, ["secret.md"] ≠ BLOG_SEGS ++ rest) ∧
    study_session_post (fun s => s) [(["secret.md"], "top secret")] "../../secret" =
      some ("top secret", "../../Secret") ∧
    blog_post (fun s => s) [(["secret.md"], "top secret")] "../../secret" =
      some ("top secret", "../../Secret") := by
  refine ⟨by decide, by decide, ?_, ?_, by decide, by decide⟩
  · intro rest h
    rw [show STUDY_SEGS ++ rest = "content" :: ("study_sessions" :: rest) from rfl] at h
    have h1 : "secret.md" = "content" := by injection h
    exact absurd h1 (by decide)
  · intro rest h
    rw [show BLOG_SEGS ++ rest = "content" :: ("blog_posts" :: rest) from rfl] at h
    have h1 : "secret.md" = "content" := by injection h
    exact absurd h1 (by decide)

/- ### C1: sortedness and stability of the post listing -/

/-- Filtering on an exact timestamp commutes with `orderedInsert`: the
inserted element lands in front of the equal-timestamp block, because every
element skipped on the way in has a strictly larger timestamp. -/
theorem filter_mtime_orderedInsert (t : Int) (x : Post) (l : List Post) :
    (List.orderedInsert postLe x l).filter (fun p => decide (p.mtime = t)) =
      (x :: l).filter (fun p => decide (p.mtime = t)) := by
  induction l with
  | nil => rfl
  | cons y ys ih =>
    by_cases h : postLe x y
    · simp [List.orderedInsert, h]
    · have hlt : x.mtime < y.mtime := not_le.mp h
      have hne : ¬(y.mtime = t ∧ x.mtime = t) := by
        rintro ⟨hy, hx⟩
        exact absurd (hx.trans hy.symm) (ne_of_lt hlt)
      rw [List.orderedInsert, if_neg h]
      by_cases hy : y.mtime = t
      · have hx : ¬x.mtime = t := fun hx => hne ⟨hy, hx⟩
        simp [List.filter_cons, hx, hy, ih]
      · simp [List.filter_cons, hy, ih]

/-- Filtering on an exact timestamp commutes with the stable sort: elements
with equal timestamps keep their enumeration order. -/
theorem filter_mtime_insertionSort (t : Int) (l : List Post) :
    (List.insertionSort postLe l).filter (fun p => decide (p.mtime = t)) =
      l.filter (fun p => decide (p.mtime = t)) := by
  induction l with
  | nil => rfl
  | cons x xs ih =>
    rw [List.insertionSort, filter_mtime_orderedInsert]
    simp only [List.filter_cons, ih]

/-- C1: for a directory with any mix of files, `list_markdown_posts` returns
exactly one entry per markdown file (a permutation of the glob results, hence
exactly N entries for N markdown files), sorted by modification time
descending, and within each equal-timestamp class the filesystem enumeration
order is preserved (the sort is stable). -/
theorem list_documents_sorted_count_stable (folderPath : String) (es : List FsEntry) :
    (list_markdown_posts folderPath (some es)).length =
      (es.filter (fun e => isMd e.name)).length ∧
    (list_markdown_posts folderPath (some es)).Perm
      ((es.filter (fun e => isMd e.name)).map (toPost folderPath)) ∧
    List.Sorted postLe (list_markdown_posts folderPath (some es)) ∧
    (∀ t : Int, (list_markdown_posts folderPath (some es)).filter
        (fun p => decide (p.mtime = t)) =
      ((es.filter (fun e => isMd e.name)).map (toPost folderPath)).filter
        (fun p => decide (p.mtime = t))) := by
  refine ⟨?_, ?_, ?_, ?_⟩
  · rw [show list_markdown_posts folderPath (some es) =
      List.insertionSort postLe ((es.filter (fun e => isMd e.name)).map (toPost folderPath))
      from rfl]
    rw [(List.perm_insertionSort postLe _).length_eq, List.length_map]
  · exact List.perm_insertionSort postLe _
  · exact List.sorted_insertionSort postLe _
  · intro t
    exact filter_mtime_insertionSort t _

/- ### C2 / C3: the csv round trip -/

/-- A non-special character is none of the four dialect characters. -/
theorem not_isCsvSpecial (c : Char) (hc : isCsvSpecial c = false) :
    c ≠ ',' ∧ c ≠ '"' ∧ c ≠ '\r' ∧ c ≠ '\n' := by
  simp only [isCsvSpecial, Bool.or_eq_false_iff, decide_eq_false_iff_not] at hc
  exact ⟨hc.1.1.1, hc.1.1.2, hc.1.2, hc.2⟩

/-- Reader step: a quote in a quoted field. -/
theorem runCsv_inQuoted_quote (cur : List Char) (fs : List String) (r : List Char) :
    runCsv .inQuoted cur fs ('"' :: r) = runCsv .quoteQuoted cur fs r := by
  simp [runCsv]

/-- Reader step: an ordinary character in a quoted field. -/
theorem runCsv_inQuoted_other (c : Char) (h : c ≠ '"') (cur : List Char)
    (fs : List String) (r : List Char) :
    runCsv .inQuoted cur fs (c :: r) = runCsv .inQuoted (cur ++ [c]) fs r := by
  simp [runCsv, h]

/-- Reader step: a doubled quote yields a literal quote. -/
theorem runCsv_quoteQuoted_quote (cur : List Char) (fs : List String) (r : List Char) :
    runCsv .quoteQuoted cur fs ('"' :: r) = runCsv .inQuoted (cur ++ ['"']) fs r := by
  simp [runCsv]

/-- Reader step: a delimiter after a closing quote ends the field. -/
theorem runCsv_quoteQuoted_comma (cur : List Char) (fs : List String) (r : List Char) :
    runCsv .quoteQuoted cur fs (',' :: r) =
      runCsv .startField [] (fs ++ [String.mk cur]) r := by
  simp [runCsv]

/-- Reader step: a CR after a closing quote ends the record. -/
theorem runCsv_quoteQuoted_cr (cur : List Char) (fs : List String) (r : List Char) :
    runCsv .quoteQuoted cur fs ('\r' :: r) =
      (fs ++ [String.mk cur]) :: runCsv .afterCR [] [] r := by
  simp [runCsv]

/-- Reader step: the LF of a CRLF terminator is absorbed. -/
theorem runCsv_afterCR_lf (cur : List Char) (fs : List String) (r : List Char) :
    runCsv .afterCR cur fs ('\n' :: r) = runCsv .startRec [] [] r := by
  simp [runCsv]

/-- Reader step: a quote at field start opens a quoted field. -/
theorem runCsv_startField_quote (cur : List Char) (fs : List String) (r : List Char) :
    runCsv .startField cur fs ('"' :: r) = runCsv .inQuoted [] fs r := by
  simp [runCsv]

/-- Reader step: a delimiter at field start produces an empty field. -/
theorem runCsv_startField_comma (cur : List Char) (fs : List String) (r : List Char) :
    runCsv .startField cur fs (',' :: r) = runCsv .startField [] (fs ++ [""]) r := by
  simp [runCsv]

/-- Reader step: a CR at field start ends the record with an empty field. -/
theorem runCsv_startField_cr (cur : List Char) (fs : List String) (r : List Char) :
    runCsv .startField cur fs ('\r' :: r) = (fs ++ [""]) :: runCsv .afterCR [] [] r := by
  simp [runCsv]

/-- Reader step: an ordinary character at field start begins an unquoted field. -/
theorem runCsv_startField_other (c : Char) (h : isCsvSpecial c = false)
    (cur : List Char) (fs : List String) (r : List Char) :
    runCsv .startField cur fs (c :: r) = runCsv .inField [c] fs r := by
  obtain ⟨h1, h2, h3, h4⟩ := not_isCsvSpecial c h
  simp [runCsv, h1, h2, h3, h4]

/-- Reader step: a delimiter in an unquoted field ends the field. -/
theorem runCsv_inField_comma (cur : List Char) (fs : List String) (r : List Char) :
    runCsv .inField cur fs (',' :: r) =
      runCsv .startField [] (fs ++ [String.mk cur]) r := by
  simp [runCsv]

/-- Reader step: a CR in an unquoted field ends the record. -/
theorem runCsv_inField_cr (cur : List Char) (fs : List String) (r : List Char) :
    runCsv .inField cur fs ('\r' :: r) =
      (fs ++ [String.mk cur]) :: runCsv .afterCR [] [] r := by
  simp [runCsv]

/-- Reader step: an ordinary character extends an unquoted field. -/
theorem runCsv_inField_other (c : Char) (h : isCsvSpecial c = false)
    (cur : List Char) (fs : List String) (r : List Char) :
    runCsv .inField cur fs (c :: r) = runCsv .inField (cur ++ [c]) fs r := by
  obtain ⟨h1, h2, h3, h4⟩ := not_isCsvSpecial c h
  simp [runCsv, h1, h2, h3, h4]

/-- At the start of a record, any character other than a line terminator is
handled exactly as at the start of a field of the empty record. -/
theorem runCsv_startRec_as_startField (c : Char) (h1 : c ≠ '\n') (h2 : c ≠ '\r')
    (cur cur2 : List Char) (fs : List String) (r : List Char) :
    runCsv .startRec cur fs (c :: r) = runCsv .startField cur2 [] (c :: r) := by
  by_cases h3 : c = '"'
  · subst h3
    simp [runCsv]
  · by_cases h4 : c = ','
    · subst h4
      simp [runCsv]
    · simp [runCsv, h1, h2, h3, h4]

/-- Consuming the quote-doubled rendering of a character block inside a
quoted field appends the block to the current field verbatim. -/
theorem runCsv_inQuoted_esc (cs : List Char) (cur : List Char) (fs : List String)
    (rest : List Char) :
    runCsv .inQuoted cur fs (escQuotes cs ++ rest) =
      runCsv .inQuoted (cur ++ cs) fs rest := by
  induction cs generalizing cur with
  | nil => simp [escQuotes]
  | cons c r ih =>
    by_cases h : c = '"'
    · subst h
      rw [show escQuotes ('"' :: r) = '"' :: ('"' :: escQuotes r) from by simp [escQuotes]]
      rw [List.cons_append, List.cons_append, runCsv_inQuoted_quote,
        runCsv_quoteQuoted_quote, ih]
      simp
    · rw [show escQuotes (c :: r) = c :: escQuotes r from by simp [escQuotes, h]]
      rw [List.cons_append, runCsv_inQuoted_other c h, ih]
      simp

/-- Consuming a block of non-special characters inside an unquoted field
appends the block to the current field verbatim. -/
theorem runCsv_inField_run (cs : List Char) (h : ∀ c ∈ cs, isCsvSpecial c = false)
    (cur : List Char) (fs : List String) (rest : List Char) :
    runCsv .inField cur fs (cs ++ rest) = runCsv .inField (cur ++ cs) fs rest := by
  induction cs generalizing cur with
  | nil => simp
  | cons c r ih =>
    rw [List.cons_append, runCsv_inField_other c (h c (by simp)),
      ih (fun c hc => h c (by simp [hc]))]
    simp

/-- The writer's rendering of a nonempty field starts with a character that is
not a line terminator. -/
theorem encodeFieldData_head (f : String) (hf : f ≠ "") :
    ∃ c cs, encodeFieldData f = c :: cs ∧ c ≠ '\n' ∧ c ≠ '\r' := by
  by_cases hq : f.data.any isCsvSpecial
  · refine ⟨'"', escQuotes f.data ++ ['"'], ?_, by decide, by decide⟩
    unfold encodeFieldData
    rw [if_pos hq]
  · cases hd : f.data with
    | nil =>
      exact absurd (by cases f with | mk d => cases hd; rfl) hf
    | cons c cs =>
      have hcs : isCsvSpecial c = false := by
        rw [Bool.eq_false_iff]
        intro hc
        exact hq (by rw [hd]; simp [hc])
      obtain ⟨_, _, h3, h4⟩ := not_isCsvSpecial c hcs
      refine ⟨c, cs, ?_, h4, h3⟩
      unfold encodeFieldData
      rw [if_neg hq, hd]

/-- Parsing the writer's rendering of one field followed by CRLF finishes the
record with that field appended. -/
theorem runCsv_field_crlf (f : String) (fs : List String) (rest : List Char) :
    runCsv .startField [] fs (encodeFieldData f ++ ('\r' :: '\n' :: rest)) =
      (fs ++ [f]) :: runCsv .startRec [] [] rest := by
  by_cases hq : f.data.any isCsvSpecial
  · rw [show encodeFieldData f = '"' :: (escQuotes f.data ++ ['"']) from by
      unfold encodeFieldData; rw [if_pos hq]]
    rw [List.cons_append, runCsv_startField_quote, List.append_assoc,
      runCsv_inQuoted_esc, List.singleton_append, runCsv_inQuoted_quote,
      runCsv_quoteQuoted_cr, runCsv_afterCR_lf]
    simp [string_mk_data]
  · rw [show encodeFieldData f = f.data from by unfold encodeFieldData; rw [if_neg hq]]
    have hall : ∀ c ∈ f.data, isCsvSpecial c = false := by
      intro c hc
      rw [Bool.eq_false_iff]
      intro hc2
      exact hq (List.any_eq_true.mpr ⟨c, hc, hc2⟩)
    cases hd : f.data with
    | nil =>
      have hf : f = "" := by cases f with | mk d => cases hd; rfl
      subst hf
      rw [List.nil_append, runCsv_startField_cr, runCsv_afterCR_lf]
    | cons c cs =>
      have hc : isCsvSpecial c = false := hall c (by rw [hd]; simp)
      rw [List.cons_append, runCsv_startField_other c hc,
        runCsv_inField_run cs (fun x hx => hall x (by rw [hd]; simp [hx])),
        runCsv_inField_cr, runCsv_afterCR_lf]
      have : String.mk ([c] ++ cs) = f := by
        rw [show [c] ++ cs = f.data from by rw [hd]; rfl, string_mk_data]
      rw [this]

/-- Parsing the writer's rendering of one field followed by a delimiter
appends the field and continues with the next field. -/
theorem runCsv_field_comma (f : String) (fs : List String) (rest : List Char) :
    runCsv .startField [] fs (encodeFieldData f ++ (',' :: rest)) =
      runCsv .startField [] (fs ++ [f]) rest := by
  by_cases hq : f.data.any isCsvSpecial
  · rw [show encodeFieldData f = '"' :: (escQuotes f.data ++ ['"']) from by
      unfold encodeFieldData; rw [if_pos hq]]
    rw [List.cons_append, runCsv_startField_quote, List.append_assoc,
      runCsv_inQuoted_esc, List.singleton_append, runCsv_inQuoted_quote,
      runCsv_quoteQuoted_comma]
    simp [string_mk_data]
  · rw [show encodeFieldData f = f.data from by unfold encodeFieldData; rw [if_neg hq]]
    have hall : ∀ c ∈ f.data, isCsvSpecial c = false := by
      intro c hc
      rw [Bool.eq_false_iff]
      intro hc2
      exact hq (List.any_eq_true.mpr ⟨c, hc, hc2⟩)
    cases hd : f.data with
    | nil =>
      have hf : f = "" := by cases f with | mk d => cases hd; rfl
      subst hf
      rw [List.nil_append, runCsv_startField_comma]
    | cons c cs =>
      have hc : isCsvSpecial c = false := hall c (by rw [hd]; simp)
      rw [List.cons_append, runCsv_startField_other c hc,
        runCsv_inField_run cs (fun x hx => hall x (by rw [hd]; simp [hx])),
        runCsv_inField_comma]
      have : String.mk ([c] ++ cs) = f := by
        rw [show [c] ++ cs = f.data from by rw [hd]; rfl, string_mk_data]
      rw [this]

/-- Parsing the comma-joined renderings of a nonempty field list followed by
CRLF finishes the record with those fields appended in order. -/
theorem runCsv_fields_crlf (row : List String) (hne : row ≠ []) (fs : List String)
    (rest : List Char) :
    runCsv .startField [] fs
        (joinComma (row.map encodeFieldData) ++ ('\r' :: '\n' :: rest)) =
      (fs ++ row) :: runCsv .startRec [] [] rest := by
  induction row generalizing fs with
  | nil => exact absurd rfl hne
  | cons f t ih =>
    cases t with
    | nil =>
      rw [show joinComma ([f].map encodeFieldData) = encodeFieldData f from rfl,
        runCsv_field_crlf]
    | cons f2 t2 =>
      rw [show joinComma ((f :: f2 :: t2).map encodeFieldData) =
          encodeFieldData f ++ ',' :: joinComma ((f2 :: t2).map encodeFieldData) from rfl,
        List.append_assoc, List.cons_append, runCsv_field_comma,
        ih (by simp) (fs ++ [f])]
      simp

/-- Reader step: a delimiter at record start produces an empty first field. -/
theorem runCsv_startRec_comma (cur : List Char) (fs : List String) (r : List Char) :
    runCsv .startRec cur fs (',' :: r) = runCsv .startField [] [""] r := by
  simp [runCsv]

/-- Parsing one written record followed by anything yields exactly that record
and continues at record start — including the writer's special cases (the
empty record as a blank line, the lone empty field as a quoted empty). -/
theorem runCsv_record (row : List String) (rest : List Char) :
    runCsv .startRec [] [] (encodeRowData row ++ rest) =
      row :: runCsv .startRec [] [] rest := by
  match row with
  | [] =>
    rw [show encodeRowData [] ++ rest = '\r' :: '\n' :: rest from rfl]
    simp [runCsv]
  | [f] =>
    by_cases hf : f = ""
    · subst hf
      rw [show encodeRowData [""] ++ rest = '"' :: '"' :: '\r' :: '\n' :: rest from rfl]
      simp [runCsv]
    · have e0 : encodeRowData [f] = (if f = "" then ['"', '"'] else encodeFieldData f) ++ ['\r', '\n'] := rfl
      rw [e0, if_neg hf, List.append_assoc,
        show ['\r', '\n'] ++ rest = '\r' :: '\n' :: rest from rfl]
      obtain ⟨c, cs, heq, h1, h2⟩ := encodeFieldData_head f hf
      have hw : encodeFieldData f ++ ('\r' :: '\n' :: rest) =
          c :: (cs ++ ('\r' :: '\n' :: rest)) := by
        rw [heq]
        rfl
      rw [hw, runCsv_startRec_as_startField c h1 h2 [] [] [], ← hw, runCsv_field_crlf]
      simp
  | f :: f2 :: t =>
    have e0 : encodeRowData (f :: f2 :: t) =
        joinComma ((f :: f2 :: t).map encodeFieldData) ++ ['\r', '\n'] := rfl
    rw [e0, List.append_assoc, show ['\r', '\n'] ++ rest = '\r' :: '\n' :: rest from rfl]
    by_cases hf : f = ""
    · subst hf
      have eJ : joinComma ((("" : String) :: f2 :: t).map encodeFieldData) =
          ',' :: joinComma ((f2 :: t).map encodeFieldData) := rfl
      rw [eJ, show (',' :: joinComma ((f2 :: t).map encodeFieldData)) ++
          ('\r' :: '\n' :: rest) =
          ',' :: (joinComma ((f2 :: t).map encodeFieldData) ++ ('\r' :: '\n' :: rest))
          from rfl,
        runCsv_startRec_comma, runCsv_fields_crlf (f2 :: t) (by simp) [""]]
      rfl
    · obtain ⟨c, cs, heq, h1, h2⟩ := encodeFieldData_head f hf
      have hJ : joinComma ((f :: f2 :: t).map encodeFieldData) ++ ('\r' :: '\n' :: rest) =
          c :: (cs ++ (',' :: joinComma ((f2 :: t).map encodeFieldData) ++
            ('\r' :: '\n' :: rest))) := by
        rw [show joinComma ((f :: f2 :: t).map encodeFieldData) =
            encodeFieldData f ++ ',' :: joinComma ((f2 :: t).map encodeFieldData)
            from rfl, heq]
        simp
      rw [hJ, runCsv_startRec_as_startField c h1 h2 [] [] [], ← hJ,
        runCsv_fields_crlf (f :: f2 :: t) (by simp) []]
      simp

/-- Parsing a whole written file followed by anything yields its records and
continues at record start. -/
theorem runCsv_rows (rows : List (List String)) (rest : List Char) :
    runCsv .startRec [] [] ((rows.map encodeRowData).flatten ++ rest) =
      rows ++ runCsv .startRec [] [] rest := by
  induction rows with
  | nil => simp
  | cons r rs ih =>
    rw [List.map_cons, List.flatten_cons, List.append_assoc, runCsv_record, ih]
    rfl

/-- C2: `append_csv` on a nonexistent file writes exactly one header row
followed by exactly one data row (so the new file parses to `[header, row]`),
and on an existing file appends exactly one data row after the unchanged
previous contents — the header is never rewritten and nothing is truncated
or reordered. -/
theorem append_submission_header_once :
    (∀ header row, append_csv none row (some header) = encodeRow header ++ encodeRow row) ∧
    (∀ header row, parseCsv (append_csv none row (some header)) = [header, row]) ∧
    (∀ prev row header, append_csv (some prev) row header = prev ++ encodeRow row) := by
  refine ⟨?_, ?_, ?_⟩
  · intro header row
    show ("" ++ encodeRow header) ++ encodeRow row = encodeRow header ++ encodeRow row
    rw [empty_string_append]
  · intro header row
    show runCsv .startRec [] [] (("" ++ encodeRow header) ++ encodeRow row).data = _
    rw [empty_string_append]
    rw [show ((encodeRow header ++ encodeRow row).data) =
      encodeRowData header ++ (encodeRowData row ++ []) from by
        rw [string_data_append]
        simp [encodeRow]]
    rw [runCsv_record, runCsv_record]
    rfl
  · intro prev row header
    rfl

/-- C3: the write-then-parse round trip is the identity on field values: for
every list of previously written records and every new record — its fields
containing delimiters, quotes, or line terminators as they may — appending the
record with `append_csv` and reading the file back with the same csv format
reconstructs all field values exactly. -/
theorem csv_roundtrip_identity :
    (∀ row, parseCsv (encodeRow row) = [row]) ∧
    (∀ prev row header,
      parseCsv (append_csv (some (encodeRows prev)) row header) = prev ++ [row]) := by
  constructor
  · intro row
    show runCsv .startRec [] [] (encodeRow row).data = [row]
    rw [show (encodeRow row).data = encodeRowData row ++ [] from by simp [encodeRow]]
    rw [runCsv_record]
    rfl
  · intro prev row header
    show runCsv .startRec [] [] (encodeRows prev ++ encodeRow row).data = prev ++ [row]
    rw [string_data_append,
      show (encodeRows prev).data = (prev.map encodeRowData).flatten from rfl,
      show (encodeRow row).data = encodeRowData row from rfl]
    rw [show (prev.map encodeRowData).flatten ++ encodeRowData row =
      (prev.map encodeRowData).flatten ++ (encodeRowData row ++ []) from by simp]
    rw [runCsv_rows, runCsv_record]
    rfl

set_option maxRecDepth 4000

/- ### C9: concurrent appends -/

/-- C9 counterexample: the claim "the resulting file contains exactly one
header row" fails. With two concurrent subscription appends on a fresh log
file, the schedule in which both existence checks run before either write
makes both calls see `first = True`, so the final file parses to four complete
rows with the header row appearing twice. -/
theorem concurrent_append_duplicate_header :
    subOutcome ["a@x.com", "t1"] ["b@y.com", "t2"]
        [false, true, false, false, true, true] =
      [subHeader, ["a@x.com", "t1"], subHeader, ["b@y.com", "t2"]] ∧
    (subOutcome ["a@x.com", "t1"] ["b@y.com", "t2"]
        [false, true, false, false, true, true]).count subHeader = 2 := by
  constructor
  · decide
  · decide

/-- C9 (amended): for two concurrent `append_csv` calls on an initially
nonexistent log file — each call's existence check, create-on-open, and
buffered whole-payload write modelled as atomic steps — every complete
interleaving produces a file of complete rows only: each call's data row
appears exactly once, every remaining row is the header row, and the header
appears once or twice (duplicate headers being reachable, the original
"exactly one header row" is weakened to "one or two"). -/
theorem concurrent_append_complete_rows :
    ∀ s ∈ schedules6,
      (subOutcome ["a@x.com", "t1"] ["b@y.com", "t2"] s).count ["a@x.com", "t1"] = 1 ∧
      (subOutcome ["a@x.com", "t1"] ["b@y.com", "t2"] s).count ["b@y.com", "t2"] = 1 ∧
      ((subOutcome ["a@x.com", "t1"] ["b@y.com", "t2"] s).count subHeader = 1 ∨
       (subOutcome ["a@x.com", "t1"] ["b@y.com", "t2"] s).count subHeader = 2) ∧
      (subOutcome ["a@x.com", "t1"] ["b@y.com", "t2"] s).length =
        2 + (subOutcome ["a@x.com", "t1"] ["b@y.com", "t2"] s).count subHeader := by
  decide

/-- C9 (amended) witness: at the fully sequential schedule, both data rows
appear once and the header exactly once. -/
theorem concurrent_append_complete_rows_witness :
    (subOutcome ["a@x.com", "t1"] ["b@y.com", "t2"]
        [false, false, false, true, true, true]).count ["a@x.com", "t1"] = 1 ∧
    (subOutcome ["a@x.com", "t1"] ["b@y.com", "t2"]
        [false, false, false, true, true, true]).count ["b@y.com", "t2"] = 1 ∧
    ((subOutcome ["a@x.com", "t1"] ["b@y.com", "t2"]
        [false, false, false, true, true, true]).count subHeader = 1 ∨
     (subOutcome ["a@x.com", "t1"] ["b@y.com", "t2"]
        [false, false, false, true, true, true]).count subHeader = 2) ∧
    (subOutcome ["a@x.com", "t1"] ["b@y.com", "t2"]
        [false, false, false, true, true, true]).length =
      2 + (subOutcome ["a@x.com", "t1"] ["b@y.com", "t2"]
        [false, false, false, true, true, true]).count subHeader :=
  concurrent_append_complete_rows [false, false, false, true, true, true] (by decide)
